import Mathlib

/-!
# Shallow embedding of `src/visualize_hashtags.py`

The program is a single linear batch pipeline built on pandas/matplotlib:

1. read a worksheet into a dataframe;
2. resolve the `Hashtag`/`Count` columns case-insensitively
   (`find_columns`), project and rename them;
3. clean: `str`-convert and strip labels, coerce counts with
   `pd.to_numeric(errors="coerce").fillna(0).astype(int)`, drop rows with
   empty labels, sort by count descending, reset the index;
4. write a CSV, two chart images, and a Markdown report into the output
   directory, overwriting existing files.

Cells are modelled by `Cell` (a string, an exact numeric value, or the
missing value NaN); a dataframe by its column-name list plus rows of
cells.  File outputs are modelled by an association list from path to
`FileContent`, where chart images are represented by the data handed to
the plotting backend.
-/

namespace HashtagViz

/-- A spreadsheet cell as pandas sees it: a text value, a numeric value
(kept exact as a rational), or a missing value (NaN). -/
inductive Cell where
  | str (s : String)
  | num (q : Rat)
  | nan
deriving DecidableEq

/-- Python `str()` applied to a cell value: strings are unchanged, numbers
print in decimal, and the float NaN prints as the three-letter text
`"nan"`. -/
def pyStr : Cell → String
  | .str s => s
  | .num q => if q.den = 1 then toString q.num else toString q
  | .nan => "nan"

/-- Remove trailing whitespace characters, as the right half of Python's
`str.strip()` does. -/
def rstripWs : List Char → List Char
  | [] => []
  | a :: t =>
    match rstripWs t with
    | [] => if a.isWhitespace then [] else [a]
    | b :: r => a :: b :: r

/-- Python `str.strip()` on the character list: drop leading whitespace,
then trailing whitespace. -/
def stripChars (cs : List Char) : List Char :=
  rstripWs (cs.dropWhile Char.isWhitespace)

/-- Python `str.strip()`: remove leading and trailing whitespace. -/
def pyStrip (s : String) : String :=
  ⟨stripChars s.data⟩

/-- Numeric value of a digit string (most significant first). -/
def digitsToNat (cs : List Char) : Nat :=
  cs.foldl (fun a c => 10 * a + (c.toNat - 48)) 0

/-- Returns `true` iff `cs` is a non-empty run of decimal digits. -/
def isDigits (cs : List Char) : Bool :=
  !cs.isEmpty && cs.all Char.isDigit

/-- Parse an unsigned decimal numeral, either an integer (`"120"`) or a
decimal fraction (`"4.5"`, `"5."`, `".5"`). -/
def parseUnsigned (cs : List Char) : Option Rat :=
  match cs.splitOn '.' with
  | [ip] => if isDigits ip then some (digitsToNat ip) else none
  | [ip, fp] =>
    if (isDigits ip || ip.isEmpty) && (isDigits fp || fp.isEmpty)
        && !(ip.isEmpty && fp.isEmpty) then
      some ((digitsToNat ip : Rat) + (digitsToNat fp : Rat) / (10 : Rat) ^ fp.length)
    else none
  | _ => none

/-- Modelled library call: `pd.to_numeric(errors="coerce")` on one text
cell.  Surrounding whitespace is ignored; an optional sign precedes an
integer or decimal-fraction numeral; any other text fails to parse
(yielding NaN, i.e. `none`).  Exotic numeric spellings (exponents, hex,
...) are outside the scope of the claims and also fail here. -/
def pyParseNumber (s : String) : Option Rat :=
  match stripChars s.data with
  | '-' :: rest => (parseUnsigned rest).map (fun q => -q)
  | '+' :: rest => parseUnsigned rest
  | cs => parseUnsigned cs

/-- Models `pd.to_numeric(errors="coerce")` on one cell: numbers pass through,
text is parsed, NaN stays NaN (`none`). -/
def toNumeric : Cell → Option Rat
  | .str s => pyParseNumber s
  | .num q => some q
  | .nan => none

/-- Truncation toward zero, as `astype(int)` does on floats. -/
def ratTrunc (q : Rat) : Int :=
  if 0 ≤ q then ⌊q⌋ else ⌈q⌉

/-- One count cell through
`pd.to_numeric(errors="coerce").fillna(0).astype(int)`: a parse failure
or missing value becomes `0`, a parsed number is truncated to integer. -/
def coerceCount (c : Cell) : Int :=
  match toNumeric c with
  | some q => ratTrunc q
  | none => 0

/-- A pandas dataframe: the column names in order, and the rows, each row
aligned positionally with the column list. -/
structure DataFrame where
  cols : List String
  rows : List (List Cell)
deriving DecidableEq

/-- The schema failure raised by `find_columns` (a `ValueError` in the
source); it carries the list of columns actually present. -/
inductive SchemaError where
  | missingColumns (found : List String)
deriving DecidableEq

/-- Python `repr` of a list of strings, as interpolated into the error
message by `f"{list(df.columns)}"`. -/
def pyListRepr (l : List String) : String :=
  match l with
  | [] => "[]"
  | _ => "['" ++ String.intercalate "', '" l ++ "']"

/-- The message of the `ValueError` raised when a required column is
missing. -/
def SchemaError.message : SchemaError → String
  | .missingColumns found =>
    "Input sheet must have columns 'Hashtag' and 'Count'. Found: " ++ pyListRepr found

/-- Python `str.lower()`: lowercase character by character. -/
def pyLower (s : String) : String :=
  ⟨s.data.map Char.toLower⟩

/-- The lookup `cols_lower.get(key)` for `cols_lower = {c.lower(): c for c in df.columns}`:
the dict comprehension lets a later column overwrite an earlier one with the
same lowercasing, so the lookup returns the last column whose lowercased
name equals `key`. -/
def colsLower (cols : List String) (key : String) : Option String :=
  (cols.filter (fun c => pyLower c = key)).getLast?

/-- Source function `find_columns(df)`: resolve the hashtag and count columns through the
case-insensitive lookup; if either is absent raise the schema error
carrying `list(df.columns)`. -/
def find_columns (df : DataFrame) : Except SchemaError (String × String) :=
  match colsLower df.cols "hashtag", colsLower df.cols "count" with
  | some h, some c => .ok (h, c)
  | _, _ => .error (.missingColumns df.cols)

/-- The cell of `row` under column `name`: label selection positionally
via the first occurrence of `name` in the header (the loader,
`pd.read_excel`, mangles duplicate headers, so headers reaching the
normalizer are pairwise distinct and the first occurrence is the only
one).  A ragged short row yields the missing value NaN. -/
def cellAt (df : DataFrame) (row : List Cell) (name : String) : Cell :=
  row.getD (df.cols.indexOf name) .nan

/-- Projection `df[[hashtag_col, count_col]]`: project each row to its (hashtag,
count) cell pair. -/
def rawPairs (df : DataFrame) (hc cc : String) : List (Cell × Cell) :=
  df.rows.map (fun r => (cellAt df r hc, cellAt df r cc))

/-- One row through the cleaning assignments:
`df["Hashtag"] = df["Hashtag"].astype(str).str.strip()` and
`df["Count"] = pd.to_numeric(df["Count"], errors="coerce").fillna(0).astype(int)`. -/
def cleanPair (p : Cell × Cell) : String × Int :=
  (pyStrip (pyStr p.1), coerceCount p.2)

/-- The cleaned (but unfiltered, unsorted) rows. -/
def cleanedRows (df : DataFrame) (hc cc : String) : List (String × Int) :=
  (rawPairs df hc cc).map cleanPair

/-- Filter `df = df[df["Hashtag"].str.len() > 0]`: drop rows whose cleaned label
is empty. -/
def filteredRows (df : DataFrame) (hc cc : String) : List (String × Int) :=
  (cleanedRows df hc cc).filter (fun r => 0 < r.1.length)

/-- The ascending comparison `sort_values("Count", ...)` sorts by: compare
rows by their count. -/
def countLE (a b : String × Int) : Prop :=
  a.2 ≤ b.2

instance : DecidableRel countLE :=
  fun a b => inferInstanceAs (Decidable (a.2 ≤ b.2))

instance : IsTotal (String × Int) countLE :=
  ⟨fun a b => Int.le_total a.2 b.2⟩

instance : IsTrans (String × Int) countLE :=
  ⟨fun _ _ _ h1 h2 => le_trans h1 h2⟩

/-- Sort `df.sort_values("Count", ascending=False)`: pandas' `nargsort` handles
`ascending=False` by reversing the rows, sorting ascending with the
selected kernel, and reversing the result; `reset_index(drop=True)` is
the identity on the row sequence.  The source leaves the kernel at the
default `kind='quicksort'` (numpy introsort), which is deterministic but
documented as not stable; it coincides with the stable insertion sort
only on arrays below numpy's 16-element small-sort cutoff.  This
executable model uses the stable `List.insertionSort` as the kernel; the
program itself guarantees only the kernel-independent facts about this
model's output — that it is a permutation of the input, descending by
count (`sortValuesGuarantee`), equal inputs give equal outputs, and on
distinct counts the full order — and those are the only facts the
theorems below except the C1 code-bug theorem rely on.  Tie order beyond
the cutoff is NOT a program guarantee; `sortValuesGuarantee` and the
concrete `tiedRows` input below record that. -/
def sort_values_desc (rows : List (String × Int)) : List (String × Int) :=
  (List.insertionSort countLE rows.reverse).reverse

/-- Modelled library guarantee: what `df.sort_values("Count",
ascending=False)` with its default `kind='quicksort'` (numpy introsort)
promises about the result — some permutation of the input rows that is
descending by count.  numpy documents this kind as unstable, so the
relative order of tied rows is deliberately not part of the guarantee. -/
def sortValuesGuarantee (input output : List (String × Int)) : Prop :=
  List.Perm output input ∧ output.Pairwise (fun a b => b.2 ≤ a.2)

/-- Twenty rows with pairwise-distinct labels, all counts tied at 5: a
row sequence longer than numpy's 16-element insertion-sort cutoff, on
which the default quicksort kernel's tie order is not guaranteed. -/
def tiedRows : List (String × Int) :=
  (List.range 20).map (fun i => (toString i, 5))

/-- A 20-row sheet whose normalization reaches `tiedRows` as its
filtered-but-unsorted row sequence. -/
def dfTied : DataFrame :=
  ⟨["Hashtag", "Count"],
    (List.range 20).map (fun i => [Cell.str (toString i), Cell.num 5])⟩

/-- The whole validate/clean/sort stage of `main` (steps 2 and 3 of the
source): resolve columns, project, clean, filter, sort. -/
def normalize (df : DataFrame) : Except SchemaError (List (String × Int)) :=
  match find_columns df with
  | .error e => .error e
  | .ok (hc, cc) => .ok (sort_values_desc (filteredRows df hc cc))

/-- Does `to_csv` have to quote this field (csv `QUOTE_MINIMAL`)? -/
def csvNeedsQuoting (s : String) : Bool :=
  s.data.any (fun c => c == ',' || c == '"' || c == '\n' || c == '\r')

/-- Double every quote character, for a quoted csv field. -/
def csvEscape (s : String) : String :=
  ⟨s.data.foldr (fun c acc => if c = '"' then '"' :: '"' :: acc else c :: acc) []⟩

/-- One csv field under the default minimal-quoting rules of
`DataFrame.to_csv`. -/
def csvField (s : String) : String :=
  if csvNeedsQuoting s then "\"" ++ csvEscape s ++ "\"" else s

/-- One data line of the cleaned csv. -/
def csvRow (r : String × Int) : String :=
  csvField r.1 ++ "," ++ toString r.2 ++ "\n"

/-- Export `df.to_csv(..., index=False)`: the header `Hashtag,Count` then one
line per row. -/
def csvContent (rows : List (String × Int)) : String :=
  "Hashtag,Count\n" ++ String.join (rows.map csvRow)

/-- Modelled library call: `df.to_markdown(index=False)` renders a pipe
table with header `Hashtag | Count` and one row per entry; the
column-width padding done by tabulate is abstracted away. -/
def toMarkdown (rows : List (String × Int)) : String :=
  "| Hashtag | Count |\n|---|---|"
    ++ String.join (rows.map (fun r => "\n| " ++ r.1 ++ " | " ++ toString r.2 ++ " |"))

/-- Report `REPORT.md` as assembled by the source, step 7: headings, the
`df.head(10)` preview table, and the two image references. -/
def reportMd (rows : List (String × Int)) : String :=
  "# Trending Hashtags – Auto Report\n\n"
    ++ "## Top 10 (preview)\n\n"
    ++ toMarkdown (rows.take 10)
    ++ "\n\n## Charts\n\n"
    ++ "![Bar Chart](./top_hashtags_bar.png)\n\n"
    ++ "![Pie Chart](./top_hashtags_pie.png)\n"

/-- What step 5 hands to the plotting backend for the bar chart. -/
structure BarChart where
  xlabels : List String
  heights : List Int
  xtickRotation : Nat
  title : String
deriving DecidableEq

/-- Call `plt.bar(df["Hashtag"], df["Count"])` with the fixed rotation and
title of the source. -/
def barChart (rows : List (String × Int)) : BarChart :=
  { xlabels := rows.map Prod.fst
    heights := rows.map Prod.snd
    xtickRotation := 45
    title := "Top Trending Hashtags (Bar Chart)" }

/-- What step 6 hands to the plotting backend for the pie chart. -/
structure PieChart where
  sizes : List Int
  labels : List String
  autopct : String
  title : String
deriving DecidableEq

/-- Call `plt.pie(df["Count"], labels=df["Hashtag"], autopct="%1.1f%%")` with
the fixed title of the source. -/
def pieChart (rows : List (String × Int)) : PieChart :=
  { sizes := rows.map Prod.snd
    labels := rows.map Prod.fst
    autopct := "%1.1f%%"
    title := "Top Trending Hashtags (Pie Chart)" }

/-- The content written at an output path: a text file, or a chart image
represented by the data it renders. -/
inductive FileContent where
  | text (s : String)
  | barPng (c : BarChart)
  | piePng (c : PieChart)
deriving DecidableEq

/-- The relevant slice of the file system: an association list from path
to content, each path bound at most once. -/
abbrev FileSystem := List (String × FileContent)

/-- Read the content at `name`, if the file exists. -/
def getFile (fs : FileSystem) (name : String) : Option FileContent :=
  (fs.find? (fun p => p.1 == name)).map Prod.snd

/-- Write `c` at `name`, silently overwriting an existing file (the
source opens with mode `"w"` / lets pandas and matplotlib overwrite). -/
def setFile (fs : FileSystem) (name : String) (c : FileContent) : FileSystem :=
  if fs.any (fun p => p.1 == name) then
    fs.map (fun p => if p.1 == name then (name, c) else p)
  else fs ++ [(name, c)]

/-- Path join `os.path.join(outdir, name)` for the simple relative names used. -/
def joinPath (outdir name : String) : String :=
  outdir ++ "/" ++ name

/-- Function `main` after the worksheet has been loaded into `df`: validation and
cleaning, then the four file writes in source order.  A schema failure
propagates before anything is written. -/
def runPipeline (df : DataFrame) (outdir : String) (fs : FileSystem) :
    Except SchemaError FileSystem :=
  match normalize df with
  | .error e => .error e
  | .ok rows =>
    let fs1 := setFile fs (joinPath outdir "top_hashtags_cleaned.csv")
      (.text (csvContent rows))
    let fs2 := setFile fs1 (joinPath outdir "top_hashtags_bar.png")
      (.barPng (barChart rows))
    let fs3 := setFile fs2 (joinPath outdir "top_hashtags_pie.png")
      (.piePng (pieChart rows))
    .ok (setFile fs3 (joinPath outdir "REPORT.md") (.text (reportMd rows)))

/-- Path `n` is bound in `fs`, and every binding of `n` carries content `c`. -/
def boundTo (fs : FileSystem) (n : String) (c : FileContent) : Prop :=
  fs.any (fun p => p.1 == n) = true ∧ ∀ p ∈ fs, p.1 = n → p = (n, c)

open List

/-! ### Properties of stripping -/

theorem dropWhile_head_not {α : Type} (p : α → Bool) (l : List α) :
    l.dropWhile p = [] ∨ ∃ a r, l.dropWhile p = a :: r ∧ p a = false := by
  induction l with
  | nil => exact Or.inl rfl
  | cons a t ih =>
    by_cases h : p a
    · simpa [List.dropWhile_cons, h] using ih
    · exact Or.inr ⟨a, t, by simp [List.dropWhile_cons, h], by simpa using h⟩

theorem rstripWs_head_eq (a : Char) (t : List Char) :
    rstripWs (a :: t) = [] ∨ ∃ r, rstripWs (a :: t) = a :: r := by
  cases h : rstripWs t with
  | nil =>
    by_cases hw : a.isWhitespace
    · exact Or.inl (by simp [rstripWs, h, hw])
    · exact Or.inr ⟨[], by simp [rstripWs, h, hw]⟩
  | cons b r => exact Or.inr ⟨b :: r, by simp [rstripWs, h]⟩

theorem rstripWs_idem : ∀ l : List Char, rstripWs (rstripWs l) = rstripWs l := by
  intro l
  induction l with
  | nil => rfl
  | cons a t ih =>
    cases h : rstripWs t with
    | nil =>
      by_cases hw : a.isWhitespace
      · simp [rstripWs, h, hw]
      · simp [rstripWs, h, hw]
    | cons b r =>
      rw [h] at ih
      have h1 : rstripWs (a :: t) = a :: b :: r := by simp [rstripWs, h]
      have h2 : rstripWs (a :: b :: r) = a :: b :: r := by
        show (match rstripWs (b :: r) with
          | [] => if a.isWhitespace then [] else [a]
          | c :: s => a :: c :: s) = a :: b :: r
        rw [ih]
      rw [h1, h2]

theorem stripChars_no_leading_ws (l : List Char) :
    stripChars l = [] ∨ ∃ a r, stripChars l = a :: r ∧ a.isWhitespace = false := by
  unfold stripChars
  rcases dropWhile_head_not Char.isWhitespace l with h | ⟨a, r, h, ha⟩
  · exact Or.inl (by rw [h]; rfl)
  · rw [h]
    rcases rstripWs_head_eq a r with h2 | ⟨r2, h2⟩
    · exact Or.inl h2
    · exact Or.inr ⟨a, r2, h2, ha⟩

theorem stripChars_idem (l : List Char) : stripChars (stripChars l) = stripChars l := by
  rcases stripChars_no_leading_ws l with h | ⟨a, r, h, ha⟩
  · rw [h]; rfl
  · have h2 : (stripChars l).dropWhile Char.isWhitespace = stripChars l := by
      rw [h]
      simp [List.dropWhile_cons, ha]
    show rstripWs ((stripChars l).dropWhile Char.isWhitespace) = stripChars l
    rw [h2]
    show rstripWs (rstripWs (l.dropWhile Char.isWhitespace)) = stripChars l
    rw [rstripWs_idem]
    rfl

theorem pyStrip_idem (s : String) : pyStrip (pyStrip s) = pyStrip s :=
  congrArg String.mk (stripChars_idem s.data)

/-! ### Properties of the sort stage -/

theorem sort_values_desc_perm (rows : List (String × Int)) :
    sort_values_desc rows ~ rows := by
  unfold sort_values_desc
  calc (List.insertionSort countLE rows.reverse).reverse
      ~ List.insertionSort countLE rows.reverse := List.reverse_perm _
    _ ~ rows.reverse := List.perm_insertionSort countLE rows.reverse
    _ ~ rows := List.reverse_perm rows

theorem mem_sort_values_desc {rows : List (String × Int)} {r : String × Int} :
    r ∈ sort_values_desc rows ↔ r ∈ rows :=
  (sort_values_desc_perm rows).mem_iff

/-! ### Structure of `normalize` -/

theorem normalize_eq_of_find (df : DataFrame) (hc cc : String)
    (hfind : find_columns df = .ok (hc, cc)) :
    normalize df = .ok (sort_values_desc (filteredRows df hc cc)) := by
  unfold normalize
  rw [hfind]

theorem mem_normalize_of_row (df : DataFrame) (hc cc : String)
    (row : List Cell) (hrow : row ∈ df.rows)
    (hlen : 0 < (pyStrip (pyStr (cellAt df row hc))).length) :
    cleanPair (cellAt df row hc, cellAt df row cc)
      ∈ sort_values_desc (filteredRows df hc cc) := by
  rw [mem_sort_values_desc]
  unfold filteredRows
  rw [List.mem_filter]
  refine ⟨?_, ?_⟩
  · unfold cleanedRows rawPairs
    exact List.mem_map.mpr ⟨(cellAt df row hc, cellAt df row cc),
      List.mem_map.mpr ⟨row, hrow, rfl⟩, rfl⟩
  · simpa [cleanPair, decide_eq_true_eq] using hlen

/-! ### The claims -/

/-- C1 is a code bug: the spec requires the descending sort to be
stable, but the source invokes `sort_values` with the default unstable
`kind='quicksort'` (numpy introsort).  At the concrete failing input
`dfTied` — whose filtered-but-unsorted sequence is the 20 tied rows
`tiedRows`, beyond numpy's 16-element insertion-sort cutoff — the
kernel's documented guarantee (`sortValuesGuarantee`) is met both by the
stable order the claim demands (`tiedRows` itself, which the
stable-kernel model returns) and by its reversal, which reorders every
tie; so the code does not guarantee the claimed stability there. -/
theorem sort_default_kind_unstable :
    filteredRows dfTied "Hashtag" "Count" = tiedRows ∧
      sort_values_desc tiedRows = tiedRows ∧
      sortValuesGuarantee tiedRows tiedRows ∧
      sortValuesGuarantee tiedRows tiedRows.reverse ∧
      tiedRows.reverse ≠ tiedRows ∧
      16 < tiedRows.length := by
  refine ⟨rfl, rfl, ⟨List.Perm.refl _, by decide⟩,
    ⟨List.reverse_perm _, by decide⟩, by decide, by decide⟩

/-- C2 fails as stated: the pipeline never rejects or clamps negative
counts, so a numeric source value `-3` survives normalization as the
negative count `-3`. -/
theorem normalize_negative_count_counterexample :
    normalize ⟨["Hashtag", "Count"], [[Cell.str "#a", Cell.num (-3)]]⟩
        = .ok [("#a", -3)] ∧ ¬ (0 : Int) ≤ -3 :=
  ⟨rfl, by decide⟩

/-- C2 (amended): after normalization every count is an integer obtained
by cleaning some source cell pair — the truncated parsed value, with any
source value that fails numeric parsing coerced to 0 — but it need not be
non-negative. -/
theorem normalize_counts_coerced (df : DataFrame) (hc cc : String)
    (out : List (String × Int))
    (hfind : find_columns df = .ok (hc, cc))
    (hout : normalize df = .ok out) :
    (∀ r ∈ out, ∃ p ∈ rawPairs df hc cc, r = cleanPair p) ∧
      ∀ c : Cell, toNumeric c = none → coerceCount c = 0 := by
  rw [normalize_eq_of_find df hc cc hfind] at hout
  injection hout with h'
  constructor
  · intro r hr
    rw [← h'] at hr
    rw [mem_sort_values_desc] at hr
    have hr2 : r ∈ cleanedRows df hc cc := List.mem_of_mem_filter hr
    unfold cleanedRows at hr2
    obtain ⟨p, hp, hpe⟩ := List.mem_map.mp hr2
    exact ⟨p, hp, hpe.symm⟩
  · intro c hc0
    unfold coerceCount
    rw [hc0]

/-- Witness for C2 (amended) at a table with an unparsable count. -/
theorem normalize_counts_coerced_witness :
    (∀ r ∈ ([("#a", 0)] : List (String × Int)),
        ∃ p ∈ rawPairs ⟨["Hashtag", "Count"],
            [[Cell.str "#a", Cell.str "N/A"]]⟩ "Hashtag" "Count",
          r = cleanPair p) ∧
      ∀ c : Cell, toNumeric c = none → coerceCount c = 0 :=
  normalize_counts_coerced
    ⟨["Hashtag", "Count"], [[Cell.str "#a", Cell.str "N/A"]]⟩
    "Hashtag" "Count" [("#a", 0)] rfl rfl

/-- C3: the end-to-end scenario: the whitespace-only label is dropped,
the trailing-space label is trimmed, the non-numeric count becomes 0, and
the rows come out sorted descending. -/
theorem normalize_scenario :
    normalize ⟨["Hashtag", "Count"],
        [[Cell.str "#ai", Cell.num 120], [Cell.str "#ai ", Cell.num 95],
          [Cell.str " ", Cell.num 50], [Cell.str "#ml", Cell.str "bad"]]⟩
      = .ok [("#ai", 120), ("#ai", 95), ("#ml", 0)] := rfl

/-- C6: a count cell that fails numeric parsing coerces to 0 while its
row (with a non-empty cleaned label) stays in the normalized table, and a
count cell that parses successfully is truncated to integer. -/
theorem unparsable_count_coerces_to_zero (df : DataFrame) (hc cc : String)
    (hfind : find_columns df = .ok (hc, cc))
    (row : List Cell) (hrow : row ∈ df.rows)
    (hbad : toNumeric (cellAt df row cc) = none)
    (hlabel : 0 < (pyStrip (pyStr (cellAt df row hc))).length) :
    (∃ out, normalize df = .ok out ∧
        (pyStrip (pyStr (cellAt df row hc)), 0) ∈ out) ∧
      ∀ (c : Cell) (q : Rat), toNumeric c = some q → coerceCount c = ratTrunc q := by
  constructor
  · refine ⟨sort_values_desc (filteredRows df hc cc),
      normalize_eq_of_find df hc cc hfind, ?_⟩
    have h := mem_normalize_of_row df hc cc row hrow hlabel
    have hz : coerceCount (cellAt df row cc) = 0 := by
      unfold coerceCount
      rw [hbad]
    have he : cleanPair (cellAt df row hc, cellAt df row cc)
        = (pyStrip (pyStr (cellAt df row hc)), 0) := by
      simp [cleanPair, hz]
    exact he ▸ h
  · intro c q hq
    unfold coerceCount
    rw [hq]

/-- Witness for C6 at a table whose count cell reads `"N/A"`. -/
theorem unparsable_count_coerces_to_zero_witness :
    (∃ out,
        normalize ⟨["Hashtag", "Count"], [[Cell.str "#a", Cell.str "N/A"]]⟩
            = .ok out ∧
          (pyStrip (pyStr (Cell.str "#a")), 0) ∈ out) ∧
      ∀ (c : Cell) (q : Rat), toNumeric c = some q → coerceCount c = ratTrunc q :=
  unparsable_count_coerces_to_zero
    ⟨["Hashtag", "Count"], [[Cell.str "#a", Cell.str "N/A"]]⟩
    "Hashtag" "Count" rfl [Cell.str "#a", Cell.str "N/A"]
    (List.mem_singleton.mpr rfl) rfl (by decide)

/-- C7: no row of the normalized table has a label that is empty after
trimming: every surviving label is non-empty and already in stripped
form, so stripping it again changes nothing and leaves it non-empty. -/
theorem normalize_labels_nonempty (df : DataFrame) (out : List (String × Int))
    (hout : normalize df = .ok out) :
    ∀ r ∈ out, 0 < (pyStrip r.1).length ∧ pyStrip r.1 = r.1 := by
  cases hfc : find_columns df with
  | error e =>
    have hne : normalize df = .error e := by
      unfold normalize
      rw [hfc]
    rw [hne] at hout
    exact Except.noConfusion hout
  | ok pc =>
    have h := normalize_eq_of_find df pc.1 pc.2 (by rw [hfc])
    rw [h] at hout
    injection hout with h'
    intro r hr
    rw [← h'] at hr
    rw [mem_sort_values_desc] at hr
    unfold filteredRows at hr
    rw [List.mem_filter] at hr
    obtain ⟨hmem, hlen⟩ := hr
    have hlen2 : 0 < r.1.length := by simpa [decide_eq_true_eq] using hlen
    unfold cleanedRows at hmem
    obtain ⟨p, _, hpe⟩ := List.mem_map.mp hmem
    have hr1 : r.1 = pyStrip (pyStr p.1) := by
      rw [← hpe]
      rfl
    have hfix : pyStrip r.1 = r.1 := by
      rw [hr1, pyStrip_idem]
    refine ⟨?_, hfix⟩
    rw [hfix]
    exact hlen2

/-- Witness for C7 at the C3 scenario table, at its last row. -/
theorem normalize_labels_nonempty_witness :
    0 < (pyStrip "#ml").length ∧ pyStrip "#ml" = "#ml" :=
  normalize_labels_nonempty
    ⟨["Hashtag", "Count"],
      [[Cell.str "#ai", Cell.num 120], [Cell.str "#ai ", Cell.num 95],
        [Cell.str " ", Cell.num 50], [Cell.str "#ml", Cell.str "bad"]]⟩
    [("#ai", 120), ("#ai", 95), ("#ml", 0)] rfl ("#ml", 0) (by decide)

/-- C10: a missing (NaN) hashtag cell is turned into the literal text
`"nan"` by `astype(str)`, so its row passes the empty-label filter and
appears in the normalized table with label `"nan"`. -/
theorem nan_label_becomes_nan (df : DataFrame) (hc cc : String)
    (hfind : find_columns df = .ok (hc, cc))
    (row : List Cell) (hrow : row ∈ df.rows)
    (hnan : cellAt df row hc = Cell.nan) :
    pyStr Cell.nan = "nan" ∧
      ∃ out, normalize df = .ok out ∧
        ("nan", coerceCount (cellAt df row cc)) ∈ out := by
  refine ⟨rfl, sort_values_desc (filteredRows df hc cc),
    normalize_eq_of_find df hc cc hfind, ?_⟩
  have hlen : 0 < (pyStrip (pyStr (cellAt df row hc))).length := by
    rw [hnan]
    decide
  have h := mem_normalize_of_row df hc cc row hrow hlen
  have he : cleanPair (cellAt df row hc, cellAt df row cc)
      = ("nan", coerceCount (cellAt df row cc)) := by
    rw [show cleanPair (cellAt df row hc, cellAt df row cc)
        = (pyStrip (pyStr (cellAt df row hc)), coerceCount (cellAt df row cc))
      from rfl, hnan]
    rfl
  exact he ▸ h

/-- Witness for C10 at a table whose hashtag cell is missing. -/
theorem nan_label_becomes_nan_witness :
    pyStr Cell.nan = "nan" ∧
      ∃ out,
        normalize ⟨["Hashtag", "Count"], [[Cell.nan, Cell.str "x"]]⟩
            = .ok out ∧
          ("nan", coerceCount (Cell.str "x")) ∈ out :=
  nan_label_becomes_nan
    ⟨["Hashtag", "Count"], [[Cell.nan, Cell.str "x"]]⟩
    "Hashtag" "Count" rfl [Cell.nan, Cell.str "x"]
    (List.mem_singleton.mpr rfl) rfl

/-- C4: when the case-insensitive lookup lacks the key `"hashtag"` or the
key `"count"`, the pipeline fails with the schema error carrying the full
list of columns actually present (its message renders that list), and
returns before any output file is written. -/
theorem runPipeline_missing_column (df : DataFrame) (outdir : String)
    (fs : FileSystem)
    (h : colsLower df.cols "hashtag" = none ∨ colsLower df.cols "count" = none) :
    runPipeline df outdir fs = .error (.missingColumns df.cols) ∧
      (SchemaError.missingColumns df.cols).message
        = "Input sheet must have columns 'Hashtag' and 'Count'. Found: "
            ++ pyListRepr df.cols := by
  have hfc : find_columns df = .error (.missingColumns df.cols) := by
    unfold find_columns
    rcases h with h | h
    · rw [h]
    · rw [h]
      cases colsLower df.cols "hashtag" <;> rfl
  have hn : normalize df = .error (.missingColumns df.cols) := by
    unfold normalize
    rw [hfc]
  refine ⟨?_, rfl⟩
  unfold runPipeline
  rw [hn]

/-- Witness for C4 at a sheet with columns `Tag`, `Total`. -/
theorem runPipeline_missing_column_witness :
    runPipeline ⟨["Tag", "Total"], [[Cell.str "#a", Cell.num 1]]⟩ "outputs" []
        = .error (.missingColumns ["Tag", "Total"]) ∧
      (SchemaError.missingColumns ["Tag", "Total"]).message
        = "Input sheet must have columns 'Hashtag' and 'Count'. Found: "
            ++ pyListRepr ["Tag", "Total"] :=
  runPipeline_missing_column ⟨["Tag", "Total"], [[Cell.str "#a", Cell.num 1]]⟩
    "outputs" [] (Or.inl rfl)

/-! ### File-system lemmas for idempotent re-runs (C8) -/

theorem boundTo_setFile_self (fs : FileSystem) (n : String) (c : FileContent) :
    boundTo (setFile fs n c) n c := by
  unfold boundTo setFile
  by_cases h : fs.any (fun p => p.1 == n) = true
  · rw [if_pos h]
    constructor
    · obtain ⟨p, hp, hpn⟩ := List.any_eq_true.mp h
      apply List.any_eq_true.mpr
      refine ⟨(n, c), List.mem_map.mpr ⟨p, hp, ?_⟩, by simp⟩
      rw [if_pos hpn]
    · intro q hq hqn
      obtain ⟨p, hp, hpq⟩ := List.mem_map.mp hq
      by_cases hpn : (p.1 == n) = true
      · rw [if_pos hpn] at hpq
        exact hpq.symm
      · rw [if_neg hpn] at hpq
        subst hpq
        exact absurd (beq_iff_eq.mpr hqn) hpn
  · rw [if_neg h]
    constructor
    · apply List.any_eq_true.mpr
      exact ⟨(n, c), List.mem_append.mpr (Or.inr (List.mem_singleton.mpr rfl)), by simp⟩
    · intro q hq hqn
      rcases List.mem_append.mp hq with hq | hq
      · have hq2 : fs.any (fun p => p.1 == n) = true :=
          List.any_eq_true.mpr ⟨q, hq, beq_iff_eq.mpr hqn⟩
        exact absurd hq2 h
      · exact List.mem_singleton.mp hq

theorem boundTo_setFile_ne (fs : FileSystem) (n m : String) (c d : FileContent)
    (hnm : m ≠ n) (hb : boundTo fs n c) :
    boundTo (setFile fs m d) n c := by
  obtain ⟨hany, hall⟩ := hb
  unfold boundTo setFile
  by_cases h : fs.any (fun p => p.1 == m) = true
  · rw [if_pos h]
    constructor
    · obtain ⟨p, hp, hpn⟩ := List.any_eq_true.mp hany
      apply List.any_eq_true.mpr
      refine ⟨p, List.mem_map.mpr ⟨p, hp, ?_⟩, hpn⟩
      rw [if_neg ?_]
      intro hpm
      exact hnm (by rw [← beq_iff_eq.mp hpm, beq_iff_eq.mp hpn])
    · intro q hq hqn
      obtain ⟨p, hp, hpq⟩ := List.mem_map.mp hq
      by_cases hpm : (p.1 == m) = true
      · rw [if_pos hpm] at hpq
        rw [← hpq] at hqn
        exact absurd hqn hnm
      · rw [if_neg hpm] at hpq
        subst hpq
        exact hall p hp hqn
  · rw [if_neg h]
    constructor
    · obtain ⟨p, hp, hpn⟩ := List.any_eq_true.mp hany
      exact List.any_eq_true.mpr ⟨p, List.mem_append.mpr (Or.inl hp), hpn⟩
    · intro q hq hqn
      rcases List.mem_append.mp hq with hq | hq
      · exact hall q hq hqn
      · rw [List.mem_singleton.mp hq] at hqn
        exact absurd hqn hnm

theorem setFile_eq_of_boundTo (fs : FileSystem) (n : String) (c : FileContent)
    (hb : boundTo fs n c) : setFile fs n c = fs := by
  obtain ⟨hany, hall⟩ := hb
  unfold setFile
  rw [if_pos hany]
  have hcongr : ∀ p ∈ fs, (if (p.1 == n) = true then (n, c) else p) = p := by
    intro p hp
    by_cases hpn : (p.1 == n) = true
    · rw [if_pos hpn, hall p hp (beq_iff_eq.mp hpn)]
    · rw [if_neg hpn]
  rw [List.map_congr_left hcongr]
  exact List.map_id fs

theorem getFile_of_boundTo (fs : FileSystem) (n : String) (c : FileContent)
    (hb : boundTo fs n c) : getFile fs n = some c := by
  obtain ⟨hany, hall⟩ := hb
  unfold getFile
  cases hf : fs.find? (fun p => p.1 == n) with
  | none =>
    obtain ⟨p, hp, hpn⟩ := List.any_eq_true.mp hany
    exact absurd hpn (List.find?_eq_none.mp hf p hp)
  | some p =>
    have hmem := List.mem_of_find?_eq_some hf
    have hpn := List.find?_some hf
    rw [hall p hmem (beq_iff_eq.mp hpn)]
    rfl

theorem joinPath_ne (outdir n1 n2 : String) (h : n1 ≠ n2) :
    joinPath outdir n1 ≠ joinPath outdir n2 := by
  intro he
  apply h
  have hd := congrArg String.data he
  simp only [joinPath, String.data_append, List.append_assoc] at hd
  exact String.ext (List.append_cancel_left (List.append_cancel_left hd))

/-! ### Case-insensitive column resolution (C5)

`pd.read_excel` mangles duplicate headers (`X`, `X.1`, ...), so every
dataframe reaching the normalizer has pairwise-distinct column names;
the `Nodup` hypotheses below record that loader guarantee. -/

theorem filter_key_map_pyLower (key : String) :
    ∀ t1 t2 : List String, t1.map pyLower = t2.map pyLower →
      (t1.filter (fun c => pyLower c = key)).map pyLower
        = (t2.filter (fun c => pyLower c = key)).map pyLower := by
  intro t1
  induction t1 with
  | nil =>
    intro t2 h
    cases t2 with
    | nil => rfl
    | cons b s => exact absurd h (by simp)
  | cons a s ih =>
    intro t2 h
    cases t2 with
    | nil => exact absurd h (by simp)
    | cons b s2 =>
      simp only [List.map_cons, List.cons.injEq] at h
      obtain ⟨hab, hs⟩ := h
      by_cases hk : pyLower a = key
      · have hk2 : pyLower b = key := hab ▸ hk
        rw [List.filter_cons_of_pos (by simpa using hk),
            List.filter_cons_of_pos (by simpa using hk2)]
        simp only [List.map_cons]
        rw [hab, ih s2 hs]
      · have hk2 : ¬ pyLower b = key := fun hh => hk (hab ▸ hh)
        rw [List.filter_cons_of_neg (by simpa using hk),
            List.filter_cons_of_neg (by simpa using hk2)]
        exact ih s2 hs

theorem map_indexOf_cons (a : String) (t : List String) (o : Option String)
    (hmem : ∀ z, o = some z → z ∈ t) (ha : a ∉ t) :
    o.map (fun n => (a :: t).indexOf n)
      = (o.map (fun n => t.indexOf n)).map (· + 1) := by
  cases o with
  | none => rfl
  | some z =>
    have hz : z ∈ t := hmem z rfl
    have hne : a ≠ z := fun he => ha (he ▸ hz)
    show some ((a :: t).indexOf z) = some (t.indexOf z + 1)
    rw [List.indexOf_cons_ne t hne]

theorem colsLower_indexOf_invariant (key : String) :
    ∀ c1 c2 : List String, c1.map pyLower = c2.map pyLower →
      c1.Nodup → c2.Nodup →
      (colsLower c1 key).map (fun n => c1.indexOf n)
        = (colsLower c2 key).map (fun n => c2.indexOf n) := by
  intro c1
  induction c1 with
  | nil =>
    intro c2 h _ _
    cases c2 with
    | nil => rfl
    | cons b s => exact absurd h (by simp)
  | cons a t1 ih =>
    intro c2 h hn1 hn2
    cases c2 with
    | nil => exact absurd h (by simp)
    | cons b t2 =>
      simp only [List.map_cons, List.cons.injEq] at h
      obtain ⟨hab, hs⟩ := h
      obtain ⟨hant, hn1t⟩ := List.nodup_cons.mp hn1
      obtain ⟨hbnt, hn2t⟩ := List.nodup_cons.mp hn2
      have hmapF := filter_key_map_pyLower key t1 t2 hs
      have hnilIff : t1.filter (fun c => pyLower c = key) = []
          ↔ t2.filter (fun c => pyLower c = key) = [] := by
        constructor
        · intro h0
          rw [h0] at hmapF
          exact List.map_eq_nil_iff.mp hmapF.symm
        · intro h0
          rw [h0] at hmapF
          exact List.map_eq_nil_iff.mp hmapF
      have hmem1 : ∀ z, (t1.filter (fun c => pyLower c = key)).getLast? = some z → z ∈ t1 :=
        fun z hz => List.mem_of_mem_filter (List.mem_of_getLast?_eq_some hz)
      have hmem2 : ∀ z, (t2.filter (fun c => pyLower c = key)).getLast? = some z → z ∈ t2 :=
        fun z hz => List.mem_of_mem_filter (List.mem_of_getLast?_eq_some hz)
      have hshift :
          ((t1.filter (fun c => pyLower c = key)).getLast?).map
              (fun n => (a :: t1).indexOf n)
            = ((t2.filter (fun c => pyLower c = key)).getLast?).map
              (fun n => (b :: t2).indexOf n) := by
        have ih2 := ih t2 hs hn1t hn2t
        unfold colsLower at ih2
        rw [map_indexOf_cons a t1 _ hmem1 hant, map_indexOf_cons b t2 _ hmem2 hbnt, ih2]
      by_cases hk : pyLower a = key
      · have hk2 : pyLower b = key := hab ▸ hk
        unfold colsLower
        rw [List.filter_cons_of_pos (by simpa using hk),
            List.filter_cons_of_pos (by simpa using hk2)]
        cases hF1e : t1.filter (fun c => pyLower c = key) with
        | nil =>
          have hF2e : t2.filter (fun c => pyLower c = key) = [] := hnilIff.mp hF1e
          rw [hF2e]
          simp
        | cons x xs =>
          have hF2ne : t2.filter (fun c => pyLower c = key) ≠ [] := by
            intro h0
            rw [hnilIff.mpr h0] at hF1e
            exact List.noConfusion hF1e
          obtain ⟨y, ys, hF2e⟩ := List.exists_cons_of_ne_nil hF2ne
          rw [hF2e, List.getLast?_cons_cons, List.getLast?_cons_cons, ← hF2e, ← hF1e]
          exact hshift
      · have hk2 : ¬ pyLower b = key := fun hh => hk (hab ▸ hh)
        unfold colsLower
        rw [List.filter_cons_of_neg (by simpa using hk),
            List.filter_cons_of_neg (by simpa using hk2)]
        exact hshift

theorem find_columns_error_of_none (df : DataFrame)
    (h : colsLower df.cols "hashtag" = none ∨ colsLower df.cols "count" = none) :
    find_columns df = .error (.missingColumns df.cols) := by
  unfold find_columns
  rcases h with h | h
  · rw [h]
  · rw [h]
    cases colsLower df.cols "hashtag" <;> rfl

theorem find_columns_ok_of_some (df : DataFrame) (nh nc : String)
    (h1 : colsLower df.cols "hashtag" = some nh)
    (h2 : colsLower df.cols "count" = some nc) :
    find_columns df = .ok (nh, nc) := by
  unfold find_columns
  rw [h1, h2]

/-- C5: two input tables whose column names differ only in letter casing
(the loader guarantees the names are pairwise distinct) and whose cell
data coincide normalize to identical tables (identical also in the
failure case: both runs reject or both accept). -/
theorem normalize_case_insensitive (df1 df2 : DataFrame)
    (hcols : df1.cols.map pyLower = df2.cols.map pyLower)
    (hn1 : df1.cols.Nodup) (hn2 : df2.cols.Nodup)
    (hrows : df1.rows = df2.rows) :
    (normalize df1).toOption = (normalize df2).toOption := by
  have hh := colsLower_indexOf_invariant "hashtag" df1.cols df2.cols hcols hn1 hn2
  have hc := colsLower_indexOf_invariant "count" df1.cols df2.cols hcols hn1 hn2
  cases h1h : colsLower df1.cols "hashtag" with
  | none =>
    have h2h : colsLower df2.cols "hashtag" = none := by
      rw [h1h] at hh
      cases h2 : colsLower df2.cols "hashtag" with
      | none => rfl
      | some y =>
        rw [h2] at hh
        exact Option.noConfusion hh
    rw [show normalize df1 = .error (.missingColumns df1.cols) by
        unfold normalize
        rw [find_columns_error_of_none df1 (Or.inl h1h)],
      show normalize df2 = .error (.missingColumns df2.cols) by
        unfold normalize
        rw [find_columns_error_of_none df2 (Or.inl h2h)]]
    rfl
  | some n1h =>
    have h2h : ∃ n2h, colsLower df2.cols "hashtag" = some n2h ∧
        df1.cols.indexOf n1h = df2.cols.indexOf n2h := by
      rw [h1h] at hh
      cases h2 : colsLower df2.cols "hashtag" with
      | none =>
        rw [h2] at hh
        exact Option.noConfusion hh
      | some n2h =>
        rw [h2] at hh
        simp only [Option.map_some', Option.some.injEq] at hh
        exact ⟨n2h, rfl, hh⟩
    obtain ⟨n2h, h2h, hih⟩ := h2h
    cases h1c : colsLower df1.cols "count" with
    | none =>
      have h2c : colsLower df2.cols "count" = none := by
        rw [h1c] at hc
        cases h2 : colsLower df2.cols "count" with
        | none => rfl
        | some y =>
          rw [h2] at hc
          exact Option.noConfusion hc
      rw [show normalize df1 = .error (.missingColumns df1.cols) by
          unfold normalize
          rw [find_columns_error_of_none df1 (Or.inr h1c)],
        show normalize df2 = .error (.missingColumns df2.cols) by
          unfold normalize
          rw [find_columns_error_of_none df2 (Or.inr h2c)]]
      rfl
    | some n1c =>
      have h2c : ∃ n2c, colsLower df2.cols "count" = some n2c ∧
          df1.cols.indexOf n1c = df2.cols.indexOf n2c := by
        rw [h1c] at hc
        cases h2 : colsLower df2.cols "count" with
        | none =>
          rw [h2] at hc
          exact Option.noConfusion hc
        | some n2c =>
          rw [h2] at hc
          simp only [Option.map_some', Option.some.injEq] at hc
          exact ⟨n2c, rfl, hc⟩
      obtain ⟨n2c, h2c, hic⟩ := h2c
      have hpairs : rawPairs df1 n1h n1c = rawPairs df2 n2h n2c := by
        unfold rawPairs
        rw [hrows]
        apply List.map_congr_left
        intro row _
        unfold cellAt
        rw [hih, hic]
      have hfiltered : filteredRows df1 n1h n1c = filteredRows df2 n2h n2c := by
        unfold filteredRows cleanedRows
        rw [hpairs]
      rw [normalize_eq_of_find df1 n1h n1c (find_columns_ok_of_some df1 n1h n1c h1h h1c),
        normalize_eq_of_find df2 n2h n2c (find_columns_ok_of_some df2 n2h n2c h2h h2c),
        hfiltered]

/-- Witness for C5: the `HASHTAG`/`COUNT` sheet against the
`Hashtag`/`Count` sheet with the same cells. -/
theorem normalize_case_insensitive_witness :
    (normalize ⟨["HASHTAG", "COUNT"],
        [[Cell.str "#a", Cell.num 2], [Cell.str "#b", Cell.num 9]]⟩).toOption
      = (normalize ⟨["Hashtag", "Count"],
        [[Cell.str "#a", Cell.num 2], [Cell.str "#b", Cell.num 9]]⟩).toOption :=
  normalize_case_insensitive
    ⟨["HASHTAG", "COUNT"], [[Cell.str "#a", Cell.num 2], [Cell.str "#b", Cell.num 9]]⟩
    ⟨["Hashtag", "Count"], [[Cell.str "#a", Cell.num 2], [Cell.str "#b", Cell.num 9]]⟩
    rfl (by decide) (by decide) rfl

/-- C9: the report is the fixed top-level heading, a second-level heading
introducing a preview table holding exactly the first `min 10 n` of the
`n` table rows in table order, then a charts section referencing both
images by their fixed relative filenames; for a 12-row table the preview
holds exactly the first 10 rows. -/
theorem reportMd_structure (rows : List (String × Int)) :
    reportMd rows
      = "# Trending Hashtags – Auto Report\n\n"
          ++ "## Top 10 (preview)\n\n"
          ++ toMarkdown (rows.take (min 10 rows.length))
          ++ "\n\n## Charts\n\n"
          ++ "![Bar Chart](./top_hashtags_bar.png)\n\n"
          ++ "![Pie Chart](./top_hashtags_pie.png)\n" ∧
      (rows.take (min 10 rows.length)).length = min 10 rows.length ∧
      (rows.length = 12 →
        (rows.take 10).length = 10 ∧
          ∀ i : Nat, i < 10 → (rows.take 10)[i]? = rows[i]?) := by
  have htake : rows.take (min 10 rows.length) = rows.take 10 := by
    rcases Nat.le_total rows.length 10 with h | h
    · rw [Nat.min_eq_right h, List.take_length, List.take_of_length_le h]
    · rw [Nat.min_eq_left h]
  refine ⟨?_, ?_, ?_⟩
  · rw [htake]
    rfl
  · rw [htake]
    exact List.length_take 10 rows
  · intro h12
    refine ⟨?_, ?_⟩
    · rw [List.length_take, h12]
      omega
    · intro i hi
      exact List.getElem?_take_of_lt hi

/-- C8: re-running the pipeline with the same input, sheet and output
directory leaves the file system exactly as the first run left it — in
particular `top_hashtags_cleaned.csv` holds byte-identical content both
times, namely the CSV serialization of the normalized table, a pure
function of the input. -/
theorem runPipeline_idempotent (df : DataFrame) (outdir : String)
    (fs fs2 : FileSystem) (h : runPipeline df outdir fs = .ok fs2) :
    runPipeline df outdir fs2 = .ok fs2 ∧
      ∃ rows, normalize df = .ok rows ∧
        getFile fs2 (joinPath outdir "top_hashtags_cleaned.csv")
          = some (.text (csvContent rows)) := by
  cases hn : normalize df with
  | error e =>
    have hbad : runPipeline df outdir fs = .error e := by
      unfold runPipeline
      rw [hn]
    rw [hbad] at h
    exact Except.noConfusion h
  | ok rows =>
    have hrun : runPipeline df outdir fs = .ok
        (setFile (setFile (setFile (setFile fs
          (joinPath outdir "top_hashtags_cleaned.csv") (.text (csvContent rows)))
          (joinPath outdir "top_hashtags_bar.png") (.barPng (barChart rows)))
          (joinPath outdir "top_hashtags_pie.png") (.piePng (pieChart rows)))
          (joinPath outdir "REPORT.md") (.text (reportMd rows))) := by
      unfold runPipeline
      rw [hn]
    rw [hrun] at h
    injection h with h'
    have hne21 : joinPath outdir "top_hashtags_bar.png"
        ≠ joinPath outdir "top_hashtags_cleaned.csv" :=
      joinPath_ne outdir _ _ (by decide)
    have hne31 : joinPath outdir "top_hashtags_pie.png"
        ≠ joinPath outdir "top_hashtags_cleaned.csv" :=
      joinPath_ne outdir _ _ (by decide)
    have hne41 : joinPath outdir "REPORT.md"
        ≠ joinPath outdir "top_hashtags_cleaned.csv" :=
      joinPath_ne outdir _ _ (by decide)
    have hne32 : joinPath outdir "top_hashtags_pie.png"
        ≠ joinPath outdir "top_hashtags_bar.png" :=
      joinPath_ne outdir _ _ (by decide)
    have hne42 : joinPath outdir "REPORT.md"
        ≠ joinPath outdir "top_hashtags_bar.png" :=
      joinPath_ne outdir _ _ (by decide)
    have hne43 : joinPath outdir "REPORT.md"
        ≠ joinPath outdir "top_hashtags_pie.png" :=
      joinPath_ne outdir _ _ (by decide)
    have b1 : boundTo fs2 (joinPath outdir "top_hashtags_cleaned.csv")
        (.text (csvContent rows)) := by
      rw [← h']
      exact boundTo_setFile_ne _ _ _ _ _ hne41
        (boundTo_setFile_ne _ _ _ _ _ hne31
          (boundTo_setFile_ne _ _ _ _ _ hne21 (boundTo_setFile_self _ _ _)))
    have b2 : boundTo fs2 (joinPath outdir "top_hashtags_bar.png")
        (.barPng (barChart rows)) := by
      rw [← h']
      exact boundTo_setFile_ne _ _ _ _ _ hne42
        (boundTo_setFile_ne _ _ _ _ _ hne32 (boundTo_setFile_self _ _ _))
    have b3 : boundTo fs2 (joinPath outdir "top_hashtags_pie.png")
        (.piePng (pieChart rows)) := by
      rw [← h']
      exact boundTo_setFile_ne _ _ _ _ _ hne43 (boundTo_setFile_self _ _ _)
    have b4 : boundTo fs2 (joinPath outdir "REPORT.md")
        (.text (reportMd rows)) := by
      rw [← h']
      exact boundTo_setFile_self _ _ _
    refine ⟨?_, rows, rfl, getFile_of_boundTo _ _ _ b1⟩
    have hrun2 : runPipeline df outdir fs2 = .ok
        (setFile (setFile (setFile (setFile fs2
          (joinPath outdir "top_hashtags_cleaned.csv") (.text (csvContent rows)))
          (joinPath outdir "top_hashtags_bar.png") (.barPng (barChart rows)))
          (joinPath outdir "top_hashtags_pie.png") (.piePng (pieChart rows)))
          (joinPath outdir "REPORT.md") (.text (reportMd rows))) := by
      unfold runPipeline
      rw [hn]
    rw [hrun2, setFile_eq_of_boundTo _ _ _ b1, setFile_eq_of_boundTo _ _ _ b2,
      setFile_eq_of_boundTo _ _ _ b3, setFile_eq_of_boundTo _ _ _ b4]

/-- Witness for C8 at a one-row table written into an empty output
directory. -/
theorem runPipeline_idempotent_witness :
    runPipeline ⟨["Hashtag", "Count"], [[Cell.str "#a", Cell.num 1]]⟩ "o"
        (setFile (setFile (setFile (setFile []
          (joinPath "o" "top_hashtags_cleaned.csv") (.text (csvContent [("#a", 1)])))
          (joinPath "o" "top_hashtags_bar.png") (.barPng (barChart [("#a", 1)])))
          (joinPath "o" "top_hashtags_pie.png") (.piePng (pieChart [("#a", 1)])))
          (joinPath "o" "REPORT.md") (.text (reportMd [("#a", 1)])))
      = .ok (setFile (setFile (setFile (setFile []
          (joinPath "o" "top_hashtags_cleaned.csv") (.text (csvContent [("#a", 1)])))
          (joinPath "o" "top_hashtags_bar.png") (.barPng (barChart [("#a", 1)])))
          (joinPath "o" "top_hashtags_pie.png") (.piePng (pieChart [("#a", 1)])))
          (joinPath "o" "REPORT.md") (.text (reportMd [("#a", 1)]))) ∧
      ∃ rows,
        normalize ⟨["Hashtag", "Count"], [[Cell.str "#a", Cell.num 1]]⟩ = .ok rows ∧
          getFile
            (setFile (setFile (setFile (setFile []
              (joinPath "o" "top_hashtags_cleaned.csv") (.text (csvContent [("#a", 1)])))
              (joinPath "o" "top_hashtags_bar.png") (.barPng (barChart [("#a", 1)])))
              (joinPath "o" "top_hashtags_pie.png") (.piePng (pieChart [("#a", 1)])))
              (joinPath "o" "REPORT.md") (.text (reportMd [("#a", 1)])))
            (joinPath "o" "top_hashtags_cleaned.csv")
            = some (.text (csvContent rows)) :=
  runPipeline_idempotent ⟨["Hashtag", "Count"], [[Cell.str "#a", Cell.num 1]]⟩ "o"
    [] _ rfl

/-- Witness for C9 at a concrete 12-row table. -/
theorem reportMd_structure_witness :
    ((List.range 12).map (fun i => (toString i, (i : Int))) |>.take 10).length = 10 ∧
      ((List.range 12).map (fun i => (toString i, (i : Int))) |>.take 10)[9]?
        = ((List.range 12).map (fun i => (toString i, (i : Int))))[9]? :=
  ⟨((reportMd_structure
      ((List.range 12).map (fun i => (toString i, (i : Int))))).2.2 (by decide)).1,
    ((reportMd_structure
      ((List.range 12).map (fun i => (toString i, (i : Int))))).2.2 (by decide)).2
      9 (by decide)⟩

end HashtagViz
